import Mathlib

/-!
Shallow embedding of the alert lifecycle and deduplication core of the
adwrng2 dashboard: the Warning Classifier (`isAerodromeWarning`,
`determineAlertSeverity`), the Alert Reconciler
(`registerAerodromeWarningsForIcao` together with its per-warning loop
`processWarnings` and timestamp normalizer `toIsoZ`), and the Validity
Sweeper (`expireOutOfWindowActiveAlerts`, `isAlertInForce`).

Conventions of the embedding:
* JavaScript strings are Lean `String`s; absent / `undefined` fields are
  `Option.none`; the `??` operator is `Option.orElse`-style matching and
  JS truthiness on strings is an explicit `== ""` test.
* The JS `Date` parser is an oracle `parse : String → Option Int`
  mapping a timestamp string to its epoch-millisecond instant, `none`
  standing for an invalid (`NaN`) date.  The Postgres timestamp
  comparison of the sweeper is interpreted through the same oracle.
* The Supabase store is a list of rows; each store statement may be made
  to fail by an explicit fault input (the error message the store would
  report), `none` meaning the statement succeeds.
* An entry point's observable outcome is a `CallOutcome`: either a value
  returned normally (which may itself be a tagged failure object) or an
  exception propagated to the caller (a rejected promise).
-/

namespace Adwrng

/-- JS `hay.startsWith(needle)` on character lists (needle first). -/
def startsWithL : List Char → List Char → Bool
  | [], _ => true
  | _ :: _, [] => false
  | a :: as, b :: bs => a == b && startsWithL as bs

/-- JS `hay.includes(needle)` on character lists (needle first). -/
def containsL (needle : List Char) : List Char → Bool
  | [] => needle.isEmpty
  | c :: cs => startsWithL needle (c :: cs) || containsL needle cs

/-- JS `hay.includes(needle)` for strings. -/
def includes (hay needle : String) : Bool :=
  containsL needle.data hay.data

/-- JS `toLowerCase`, character by character (ASCII range; accented
capitals are handled by the diacritic table below). -/
def lowerString (s : String) : String :=
  String.mk (s.data.map Char.toLower)

/-- JS `toUpperCase`, character by character (ASCII range, as used on
ICAO codes). -/
def upperString (s : String) : String :=
  String.mk (s.data.map Char.toUpper)

/-- The composed effect of JS lower-casing and
`normalize("NFD").replace(diacritic-class, "")` on the Latin-1 range:
accented letters (either case, since full-Unicode lower-casing folds
the case first) map to their base lower-case letter; characters outside
the table are unchanged. -/
def stripDiacriticChar (c : Char) : Char :=
  if c == 'á' || c == 'à' || c == 'â' || c == 'ã' || c == 'ä' ||
      c == 'Á' || c == 'À' || c == 'Â' || c == 'Ã' || c == 'Ä' then 'a'
  else if c == 'é' || c == 'è' || c == 'ê' || c == 'ë' ||
      c == 'É' || c == 'È' || c == 'Ê' || c == 'Ë' then 'e'
  else if c == 'í' || c == 'ì' || c == 'î' || c == 'ï' ||
      c == 'Í' || c == 'Ì' || c == 'Î' || c == 'Ï' then 'i'
  else if c == 'ó' || c == 'ò' || c == 'ô' || c == 'õ' || c == 'ö' ||
      c == 'Ó' || c == 'Ò' || c == 'Ô' || c == 'Õ' || c == 'Ö' then 'o'
  else if c == 'ú' || c == 'ù' || c == 'û' || c == 'ü' ||
      c == 'Ú' || c == 'Ù' || c == 'Û' || c == 'Ü' then 'u'
  else if c == 'ç' || c == 'Ç' then 'c'
  else if c == 'ñ' || c == 'Ñ' then 'n'
  else c

/-- `normalizeText` of the source: lower-case, then strip diacritics. -/
def normalizeText (input : String) : String :=
  String.mk ((lowerString input).data.map stripDiacriticChar)

/-- One raw alert object from the REDEMET payload.  Fields the core
reads; an absent key is `none`. -/
structure RedemetAlert where
  mensagem : Option String := none
  mens : Option String := none
  tipo : Option String := none
  data_validade_ini : Option String := none
  validade_inicial : Option String := none
  data_validade_fim : Option String := none
  validade_final : Option String := none
deriving Repr, DecidableEq

/-- `(alert).mensagem ?? (alert).mens ?? ""`. -/
def rawMsgOf (a : RedemetAlert) : String :=
  match a.mensagem with
  | some s => s
  | none =>
    match a.mens with
    | some s => s
    | none => ""

/-- The Warning Classifier's aerodrome-warning test, as in the source. -/
def isAerodromeWarning (a : RedemetAlert) : Bool :=
  let tipo := normalizeText (a.tipo.getD "")
  let msg := normalizeText (rawMsgOf a)
  if includes msg "ad wrng" || includes msg "aerodrome warning" then true
  else if includes tipo "aerodromo" || includes msg "aerodromo" then true
  else if includes tipo "aviso" && (includes msg "ad" || includes msg "aerodromo") then true
  else false

/-- Severity levels of an AlertRecord. -/
inductive Severity where
  | low
  | medium
  | high
  | critical
deriving Repr, DecidableEq

/-- `determineAlertSeverity` of the source: first matching keyword tier
wins, checked critical, high, medium, with low the default. -/
def determineAlertSeverity (a : RedemetAlert) : Severity :=
  let message := lowerString (a.mensagem.getD "")
  let tipo := lowerString (a.tipo.getD "")
  if includes message "closed" || includes message "fechado" ||
      includes message "danger" || includes tipo "sigmet" then .critical
  else if includes message "thunderstorm" || includes message "tempestade" ||
      includes message "severe" || includes message "turbulence" then .high
  else if includes message "caution" || includes message "warning" ||
      includes message "aviso" then .medium
  else .low

/-- Positional match of a character list against a format list in which
the letter d stands for a digit and every other character stands for
itself; the embedding of the anchored naive-timestamp regex. -/
def matchesFmt : List Char → List Char → Bool
  | [], [] => true
  | f :: fs, c :: cs => (if f == 'd' then c.isDigit else c == f) && matchesFmt fs cs
  | _, _ => false

/-- The regex test of `toIsoZ` on a candidate timestamp string. -/
def naiveTimestampShape (s : String) : Bool :=
  matchesFmt "dddd-dd-dd dd:dd:dd".data s.data

/-- JS `s.replace(" ", "T")`: only the first space is replaced. -/
def replaceFirstSpace : List Char → List Char
  | [] => []
  | c :: cs => if c == ' ' then 'T' :: cs else c :: replaceFirstSpace cs

/-- `toIsoZ` of the source: a falsy value (absent field or empty string)
becomes null; a naive "YYYY-MM-DD HH:mm:ss" timestamp is re-tagged as
UTC; anything else passes through unchanged. -/
def toIsoZ (v : Option String) : Option String :=
  match v with
  | none => none
  | some s =>
    if s == "" then none
    else if naiveTimestampShape s then
      some (String.mk (replaceFirstSpace s.data) ++ "Z")
    else some s

/-- Lifecycle status of a stored alert row. -/
inductive AlertStatus where
  | active
  | expired
  | archived
deriving Repr, DecidableEq

/-- One row of the alerts_history store. -/
structure AlertRecord where
  icao : String
  alert_type : String
  content : String
  status : AlertStatus
  severity : Severity
  valid_from : Option String := none
  valid_until : Option String := none
  raw_data : Option RedemetAlert := none
deriving Repr, DecidableEq

/-- The shape `isAlertInForce` reads: just the validity window. -/
structure ValidityLike where
  valid_from : Option String := none
  valid_until : Option String := none
deriving Repr, DecidableEq

/-- One side of the validity window as `isAlertInForce` sees it: a falsy
(empty) string is null, and an unparseable date (`NaN` time, filtered by
the source's finiteness check) imposes no bound either. -/
def parseBound (parse : String → Option Int) (v : Option String) : Option Int :=
  match v with
  | none => none
  | some s => if s == "" then none else parse s

/-- `isAlertInForce` of the source, over the `Date`-parser oracle:
returns false when a finite lower bound lies strictly after `now` or a
finite upper bound lies strictly before `now`, and true otherwise. -/
def isAlertInForce (parse : String → Option Int) (alert : ValidityLike) (now : Int) : Bool :=
  match parseBound parse alert.valid_from with
  | some t =>
    if now < t then false
    else
      match parseBound parse alert.valid_until with
      | some u => if now > u then false else true
      | none => true
  | none =>
    match parseBound parse alert.valid_until with
    | some u => if now > u then false else true
    | none => true

/-- Observable outcome of an entry-point call: a value returned normally
(`returns`), or an exception thrown out of the async function — a
rejected promise the caller must catch (`throws`). -/
inductive CallOutcome (α : Type) where
  | returns (val : α)
  | throws (error : String)
deriving Repr, DecidableEq

/-- Result object of `registerAerodromeWarningsForIcao`: a tagged union
on the `ok` discriminator. -/
inductive RegisterResult where
  | success (inserted alreadyActive : Nat) (sampleMessage : Option String)
  | failure (error : String)
deriving Repr, DecidableEq

/-- JS value shapes the payload plumbing distinguishes: `undefined`, an
array of alert objects, or an object whose optional `data` key holds a
further value.  Property access on an array yields `undefined`. -/
inductive JVal where
  | undefinedVal
  | arr (elems : List RedemetAlert)
  | obj (dataField : Option JVal)
deriving Repr

/-- JS `v?.data`: the `data` field of an object, `undefined` otherwise
(in particular on an array, which has no `data` property). -/
def JVal.getData : JVal → JVal
  | .obj (some v) => v
  | _ => .undefinedVal

/-- JS `Array.isArray(v) ? v : null`. -/
def JVal.asArray : JVal → Option (List RedemetAlert)
  | .arr xs => some xs
  | _ => none

/-- The payload-unwrap chain shared by `fetchRedemetAlerts` and
`registerAerodromeWarningsForIcao`: try `payload?.data`,
`payload?.data?.data`, `payload?.data?.data?.data` in turn, and fall
back to the empty list. -/
def extractAlerts (payload : JVal) : List RedemetAlert :=
  match payload.getData.asArray with
  | some xs => xs
  | none =>
    match payload.getData.getData.asArray with
    | some xs => xs
    | none =>
      match payload.getData.getData.getData.asArray with
      | some xs => xs
      | none => []

/-- What `fetchRedemetAlerts` hands back: exactly one of the `data` and
`error` fields is populated (every produced error string is non-empty,
so the sum is faithful to the `if (res.error)` truthiness test). -/
inductive RedemetResponse where
  | withData (data : List RedemetAlert)
  | withError (error : String)
deriving Repr, DecidableEq

/-- Outcome of the one HTTP GET `fetchRedemetAlerts` performs: a network
failure with the message of the raised error, or a response with its
`ok` flag, status code and JSON body. -/
inductive HttpResult where
  | netError (message : String)
  | response (ok : Bool) (status : Nat) (body : JVal)

/-- `formatNetworkError` of the source: network-level failures are
replaced by a configuration hint, an empty message by the fallback. -/
def formatNetworkError (message fallback : String) : String :=
  let m := lowerString message
  if includes m "failed to fetch" || includes m "networkerror" ||
      includes m "network request failed" then
    "Falha de conexão com o backend (Supabase). Verifique VITE_SUPABASE_URL e VITE_SUPABASE_PUBLISHABLE_KEY no .env."
  else if message == "" then fallback
  else message

/-- `fetchRedemetAlerts` of the source over the HTTP oracle: missing API
key and non-ok statuses become error strings, a good response has its
alert list extracted from the JSON body. -/
def fetchRedemetAlerts (apiKey : Option String) (http : HttpResult) : RedemetResponse :=
  match apiKey with
  | none => .withError "VITE_REDEMET_API_KEY não configurada no .env."
  | some _ =>
    match http with
    | .netError m => .withError (formatNetworkError m "Unknown error occurred")
    | .response okFlag status body =>
      if okFlag then .withData (extractAlerts body)
      else .withError ("REDEMET retornou " ++ toString status)

/-- `String(rawTipo || "AVISO")` where `rawTipo = (a).tipo ?? "AD WRNG"`. -/
def alertTypeOf (a : RedemetAlert) : String :=
  let rawTipo := a.tipo.getD "AD WRNG"
  if rawTipo == "" then "AVISO" else rawTipo

/-- `String(rawMsg || "(sem mensagem)")` over the `mensagem ?? mens ?? ""`
chain. -/
def contentOf (a : RedemetAlert) : String :=
  let rawMsg := rawMsgOf a
  if rawMsg == "" then "(sem mensagem)" else rawMsg

/-- The existence check of the reconciler: is some row of the store
active with exactly this `(icao, alert_type, content)` triple? -/
def findActive (store : List AlertRecord) (icaoUp alertType content : String) : Bool :=
  store.any fun r =>
    r.icao == icaoUp && r.status == AlertStatus.active &&
    r.alert_type == alertType && r.content == content

/-- The row the reconciler inserts for one classified warning: active,
severity computed on the spread object with `mensagem`/`tipo` replaced
by the fallback-applied `content`/`alert_type`, validity window run
through `toIsoZ`, and the raw alert kept as snapshot. -/
def buildRecord (icaoUp : String) (a : RedemetAlert) : AlertRecord :=
  let alertType := alertTypeOf a
  let content := contentOf a
  { icao := icaoUp
    alert_type := alertType
    content := content
    status := .active
    severity := determineAlertSeverity { a with mensagem := some content, tipo := some alertType }
    valid_from := toIsoZ (a.data_validade_ini.orElse fun _ => a.validade_inicial)
    valid_until := toIsoZ (a.data_validade_fim.orElse fun _ => a.validade_final)
    raw_data := some a }

/-- The per-warning loop of `registerAerodromeWarningsForIcao` (the
check-then-insert of each classified warning in order).  `faults` gives,
per warning, the error the store select resp. insert would report
(`none` = success); a store error aborts at once, keeping the writes
already performed.  On success the pair counts `(inserted,
alreadyActive)`. -/
def processWarnings (icaoUp : String) :
    List RedemetAlert → List (Option String × Option String) → List AlertRecord →
    Except String (Nat × Nat) × List AlertRecord
  | [], _, store => (.ok (0, 0), store)
  | a :: rest, faults, store =>
    let fl := faults.headD (none, none)
    match fl.fst with
    | some e => (.error e, store)
    | none =>
      if findActive store icaoUp (alertTypeOf a) (contentOf a) then
        match processWarnings icaoUp rest faults.tail store with
        | (.ok (ins, act), st) => (.ok (ins, act + 1), st)
        | r => r
      else
        match fl.snd with
        | some e => (.error e, store)
        | none =>
          match processWarnings icaoUp rest faults.tail (store ++ [buildRecord icaoUp a]) with
          | (.ok (ins, act), st) => (.ok (ins + 1, act), st)
          | r => r

/-- `registerAerodromeWarningsForIcao` of the source: branch on the
fetch result, re-run the payload-unwrap chain on `res.data` (which is
already the extracted alert array — an array has no `data` property, so
the chain yields the empty list), filter by the classifier, take the
first warning's message as sample, and run the check-then-insert loop.
Every path returns a tagged `RegisterResult`; the function never
throws. -/
def registerAerodromeWarningsForIcao (icao : String) (res : RedemetResponse)
    (faults : List (Option String × Option String)) (store : List AlertRecord) :
    CallOutcome RegisterResult × List AlertRecord :=
  match res with
  | .withError e => (.returns (.failure e), store)
  | .withData xs =>
    let payload := JVal.arr xs
    let alerts := extractAlerts payload
    let aerodromeWarnings := alerts.filter isAerodromeWarning
    let firstMessage : Option String :=
      match aerodromeWarnings.head? with
      | some a => a.mensagem.orElse fun _ => a.mens
      | none => none
    let sampleMessage : Option String :=
      match firstMessage with
      | some s => if s == "" then none else some s
      | none => none
    match processWarnings (upperString icao) aerodromeWarnings faults store with
    | (.ok (ins, act), st) => (.returns (.success ins act sampleMessage), st)
    | (.error e, st) => (.returns (.failure e), st)

/-- The `in("icao", icaos.map(toUpperCase))` restriction of the sweeper:
applied only when a filter list is present and non-empty (an empty array
is falsy in the `params?.icaos?.length` guard). -/
def icaoFilterMatch (icaos : Option (List String)) (r : AlertRecord) : Bool :=
  match icaos with
  | none => true
  | some l => if l.length == 0 then true else (l.map upperString).contains r.icao

/-- Condition of the sweeper's first bulk update: still active, with a
non-null `valid_until` strictly before now. -/
def untilBeforeNow (parse : String → Option Int) (now : Int) (r : AlertRecord) : Bool :=
  r.status == AlertStatus.active &&
    match r.valid_until with
    | some s =>
      (match parse s with
       | some t => decide (t < now)
       | none => false)
    | none => false

/-- Condition of the sweeper's second bulk update: still active, with a
non-null `valid_from` strictly after now. -/
def fromAfterNow (parse : String → Option Int) (now : Int) (r : AlertRecord) : Bool :=
  r.status == AlertStatus.active &&
    match r.valid_from with
    | some s =>
      (match parse s with
       | some t => decide (now < t)
       | none => false)
    | none => false

/-- One filtered bulk `update({status: "expired"})` statement. -/
def sweepPass (cond : AlertRecord → Bool) (icaos : Option (List String))
    (store : List AlertRecord) : List AlertRecord :=
  store.map fun r =>
    if cond r && icaoFilterMatch icaos r then { r with status := .expired } else r

/-- `expireOutOfWindowActiveAlerts` of the source: two sequential bulk
updates; a store error on either statement is thrown (the enclosing
async function rejects), with the first statement's effect kept when the
second fails. -/
def expireOutOfWindowActiveAlerts (parse : String → Option Int)
    (icaos : Option (List String)) (now : Int) (fault1 fault2 : Option String)
    (store : List AlertRecord) : CallOutcome Unit × List AlertRecord :=
  match fault1 with
  | some e => (.throws e, store)
  | none =>
    let store1 := sweepPass (untilBeforeNow parse now) icaos store
    match fault2 with
    | some e => (.throws e, store1)
    | none => (.returns (), sweepPass (fromAfterNow parse now) icaos store1)

/-- One invocation of the core against the store: a reconciler call
(with its fetch result and store-fault schedule) or a sweeper call. -/
inductive CoreOp where
  | reg (icao : String) (res : RedemetResponse) (faults : List (Option String × Option String))
  | sweep (icaos : Option (List String)) (now : Int) (fault1 fault2 : Option String)

/-- Store effect of one core operation. -/
def applyOp (parse : String → Option Int) (store : List AlertRecord) : CoreOp → List AlertRecord
  | .reg icao res faults => (registerAerodromeWarningsForIcao icao res faults store).snd
  | .sweep icaos now f1 f2 => (expireOutOfWindowActiveAlerts parse icaos now f1 f2 store).snd

/-- Store effect of a sequence of core operations, first op first. -/
def applyOps (parse : String → Option Int) (store : List AlertRecord) : List CoreOp → List AlertRecord
  | [] => store
  | op :: ops => applyOps parse (applyOp parse store op) ops

/-- Number of active rows carrying a given dedup triple. -/
def countActiveTriple (store : List AlertRecord) (icaoV alertType content : String) : Nat :=
  (store.filter fun r =>
    r.icao == icaoV && r.status == AlertStatus.active &&
    r.alert_type == alertType && r.content == content).length

/-- The central deduplication invariant: at most one active row per
`(icao, alert_type, content)` triple. -/
def dedupInvariant (store : List AlertRecord) : Prop :=
  ∀ icaoV alertType content, countActiveTriple store icaoV alertType content ≤ 1

/-- How one core operation may change a row already in the store: left
untouched, or expired while it was active. -/
def evolves (r r' : AlertRecord) : Prop :=
  r' = r ∨ (r.status = AlertStatus.active ∧ r' = { r with status := AlertStatus.expired })

/-- The raw alert of the fresh-warning scenario: the single AD WRNG
message the Status Source reports for ICAO SBMQ. -/
def sbmqAlert : RedemetAlert :=
  { mensagem := some "AD WRNG SBMQ 010000/010600 TS OBSC", tipo := some "AVISO" }

/-- A raw AD WRNG alert whose source type field is omitted entirely. -/
def noTipoAlert : RedemetAlert :=
  { mensagem := some "AD WRNG SBMQ 010000/010600 TS OBSC" }

/-- A two-row store exercising monotonic expiry: one expired row, one
active row. -/
def twoRowStore : List AlertRecord :=
  [{ icao := "SBMQ", alert_type := "AVISO", content := "old",
     status := .expired, severity := .low },
   { icao := "SBGL", alert_type := "AVISO", content := "new",
     status := .active, severity := .low }]

/-- A concrete reconcile-then-sweep call sequence. -/
def regThenSweep : List CoreOp :=
  [.reg "SBMQ" (.withData [sbmqAlert]) [], .sweep none 0 none none]

/-- Does the last character of the string mark a UTC offset of the form
sign, two digits, colon, two digits (the "+hh:mm" / "-hh:mm" suffix of
an ISO timestamp)?  Inspected from the end of the string. -/
def endsWithUtcOffset (s : String) : Bool :=
  match s.data.reverse with
  | m2 :: m1 :: c :: h2 :: h1 :: sgn :: _ =>
    (sgn == '+' || sgn == '-') && h1.isDigit && h2.isDigit && c == ':' &&
      m1.isDigit && m2.isDigit
  | _ => false

/-- Does the string already carry an offset or explicit zone: a trailing
"Z" designator or a numeric UTC offset suffix? -/
def carriesExplicitZone (s : String) : Bool :=
  (match s.data.reverse with
   | c :: _ => c == 'Z'
   | [] => false) || endsWithUtcOffset s

/-- Decidable equality for `Except` results, so that concrete runs of
the reconciler loop can be checked by evaluation. -/
instance {ε α : Type} [DecidableEq ε] [DecidableEq α] : DecidableEq (Except ε α) :=
  fun x y =>
    match x, y with
    | .ok a, .ok b =>
      if h : a = b then .isTrue (h ▸ rfl)
      else .isFalse fun he => h (by injection he)
    | .error e, .error f =>
      if h : e = f then .isTrue (h ▸ rfl)
      else .isFalse fun he => h (by injection he)
    | .ok _, .error _ => .isFalse fun he => by injection he
    | .error _, .ok _ => .isFalse fun he => by injection he

/-! ### Helper lemmas on the store and the reconciler loop -/

/-- The row predicate behind both `findActive` and `countActiveTriple`. -/
def tripleActivePred (icaoV alertType content : String) (r : AlertRecord) : Bool :=
  r.icao == icaoV && r.status == AlertStatus.active &&
    r.alert_type == alertType && r.content == content

theorem countActiveTriple_eq (store : List AlertRecord) (i t c : String) :
    countActiveTriple store i t c = (store.filter (tripleActivePred i t c)).length := rfl

theorem findActive_eq_any (store : List AlertRecord) (i t c : String) :
    findActive store i t c = store.any (tripleActivePred i t c) := rfl

theorem countActiveTriple_cons (r : AlertRecord) (store : List AlertRecord) (i t c : String) :
    countActiveTriple (r :: store) i t c =
      (if tripleActivePred i t c r then 1 else 0) + countActiveTriple store i t c := by
  simp only [countActiveTriple_eq, List.filter_cons]
  split <;> simp [Nat.add_comm]

theorem countActiveTriple_append (s₁ s₂ : List AlertRecord) (i t c : String) :
    countActiveTriple (s₁ ++ s₂) i t c =
      countActiveTriple s₁ i t c + countActiveTriple s₂ i t c := by
  simp [countActiveTriple_eq, List.filter_append]

theorem findActive_false_count_zero (store : List AlertRecord) (i t c : String)
    (h : findActive store i t c = false) : countActiveTriple store i t c = 0 := by
  rw [countActiveTriple_eq, List.length_eq_zero, List.filter_eq_nil_iff]
  rw [findActive_eq_any, List.any_eq_false] at h
  intro r hr
  exact (h r hr)

theorem buildRecord_icao (icaoUp : String) (a : RedemetAlert) :
    (buildRecord icaoUp a).icao = icaoUp := rfl

theorem buildRecord_alert_type (icaoUp : String) (a : RedemetAlert) :
    (buildRecord icaoUp a).alert_type = alertTypeOf a := rfl

theorem buildRecord_content (icaoUp : String) (a : RedemetAlert) :
    (buildRecord icaoUp a).content = contentOf a := rfl

theorem buildRecord_status (icaoUp : String) (a : RedemetAlert) :
    (buildRecord icaoUp a).status = AlertStatus.active := rfl

/-- Appending the freshly built row keeps the dedup invariant, because
the row is inserted only after `findActive` reported no active row with
its triple. -/
theorem dedupInvariant_insert (store : List AlertRecord) (icaoUp : String)
    (a : RedemetAlert) (hinv : dedupInvariant store)
    (hfree : findActive store icaoUp (alertTypeOf a) (contentOf a) = false) :
    dedupInvariant (store ++ [buildRecord icaoUp a]) := by
  intro i t c
  rw [countActiveTriple_append]
  by_cases hp : tripleActivePred i t c (buildRecord icaoUp a) = true
  · have h1 : countActiveTriple [buildRecord icaoUp a] i t c = 1 := by
      rw [countActiveTriple_cons, if_pos hp]
      rfl
    have hi : i = icaoUp := by
      have := hp
      simp only [tripleActivePred, Bool.and_eq_true, beq_iff_eq] at this
      exact this.1.1.1.symm
    have ht : t = alertTypeOf a := by
      simp only [tripleActivePred, Bool.and_eq_true, beq_iff_eq] at hp
      exact hp.1.2.symm
    have hc : c = contentOf a := by
      simp only [tripleActivePred, Bool.and_eq_true, beq_iff_eq] at hp
      exact hp.2.symm
    have h0 : countActiveTriple store i t c = 0 := by
      rw [hi, ht, hc]
      exact findActive_false_count_zero store icaoUp (alertTypeOf a) (contentOf a) hfree
    omega
  · have h1 : countActiveTriple [buildRecord icaoUp a] i t c = 0 := by
      rw [countActiveTriple_cons, if_neg hp]
      rfl
    have := hinv i t c
    omega

/-- The reconciler loop preserves the dedup invariant, whatever the
fault schedule. -/
theorem processWarnings_dedup (icaoUp : String) :
    ∀ (ws : List RedemetAlert) (faults : List (Option String × Option String))
      (store : List AlertRecord), dedupInvariant store →
      dedupInvariant (processWarnings icaoUp ws faults store).snd
  | [], _, _, h => h
  | a :: rest, faults, store, h => by
    unfold processWarnings
    dsimp only
    cases hfl : (faults.headD (none, none)).fst with
    | some e => exact h
    | none =>
      dsimp only
      by_cases hfind : findActive store icaoUp (alertTypeOf a) (contentOf a) = true
      · rw [if_pos hfind]
        have ih := processWarnings_dedup icaoUp rest faults.tail store h
        rcases hrec : processWarnings icaoUp rest faults.tail store with ⟨res, st⟩
        rw [hrec] at ih
        cases res with
        | ok p => rcases p with ⟨ins, act⟩; exact ih
        | error e => exact ih
      · rw [if_neg hfind]
        cases hsnd : (faults.headD (none, none)).snd with
        | some e => exact h
        | none =>
          dsimp only
          have hstep : dedupInvariant (store ++ [buildRecord icaoUp a]) :=
            dedupInvariant_insert store icaoUp a h (by simpa using hfind)
          have ih := processWarnings_dedup icaoUp rest faults.tail
            (store ++ [buildRecord icaoUp a]) hstep
          rcases hrec : processWarnings icaoUp rest faults.tail
            (store ++ [buildRecord icaoUp a]) with ⟨res, st⟩
          rw [hrec] at ih
          cases res with
          | ok p => rcases p with ⟨ins, act⟩; exact ih
          | error e => exact ih

/-- The reconciler entry point preserves the dedup invariant. -/
theorem register_dedup (icao : String) (res : RedemetResponse)
    (faults : List (Option String × Option String)) (store : List AlertRecord)
    (h : dedupInvariant store) :
    dedupInvariant (registerAerodromeWarningsForIcao icao res faults store).snd := by
  unfold registerAerodromeWarningsForIcao
  cases res with
  | withError e => exact h
  | withData xs =>
    dsimp only
    have hd := processWarnings_dedup (upperString icao)
      ((extractAlerts (JVal.arr xs)).filter isAerodromeWarning) faults store h
    rcases hrec : processWarnings (upperString icao)
      ((extractAlerts (JVal.arr xs)).filter isAerodromeWarning) faults store with ⟨r, st⟩
    rw [hrec] at hd
    cases r with
    | ok p => rcases p with ⟨ins, act⟩; exact hd
    | error e => exact hd

/-- A bulk update to `expired` can only decrease the number of active
rows with a given triple. -/
theorem sweepPass_count_le (cond : AlertRecord → Bool) (icaos : Option (List String)) :
    ∀ (store : List AlertRecord) (i t c : String),
      countActiveTriple (sweepPass cond icaos store) i t c ≤ countActiveTriple store i t c
  | [], _, _, _ => Nat.le_refl _
  | r :: rest, i, t, c => by
    have ih := sweepPass_count_le cond icaos rest i t c
    simp only [sweepPass, List.map_cons]
    rw [show (List.map (fun r => if cond r && icaoFilterMatch icaos r then
        { r with status := .expired } else r) rest) = sweepPass cond icaos rest from rfl]
    rw [countActiveTriple_cons, countActiveTriple_cons]
    by_cases hc : (cond r && icaoFilterMatch icaos r) = true
    · rw [if_pos hc]
      have : tripleActivePred i t c { r with status := AlertStatus.expired } = false := by
        simp [tripleActivePred]
      rw [this]
      simp only [Bool.false_eq_true, if_false]
      split <;> omega
    · rw [if_neg hc]
      omega

/-- The sweeper entry point preserves the dedup invariant. -/
theorem expire_dedup (parse : String → Option Int) (icaos : Option (List String))
    (now : Int) (fault1 fault2 : Option String) (store : List AlertRecord)
    (h : dedupInvariant store) :
    dedupInvariant (expireOutOfWindowActiveAlerts parse icaos now fault1 fault2 store).snd := by
  unfold expireOutOfWindowActiveAlerts
  cases fault1 with
  | some e => exact h
  | none =>
    cases fault2 with
    | some e =>
      intro i t c
      exact Nat.le_trans (sweepPass_count_le _ icaos store i t c) (h i t c)
    | none =>
      intro i t c
      exact Nat.le_trans (sweepPass_count_le _ icaos _ i t c)
        (Nat.le_trans (sweepPass_count_le _ icaos store i t c) (h i t c))

/-- The reconciler loop only appends rows: it never rewrites an
existing one. -/
theorem processWarnings_extends (icaoUp : String) :
    ∀ (ws : List RedemetAlert) (faults : List (Option String × Option String))
      (store : List AlertRecord),
      ∃ ext, (processWarnings icaoUp ws faults store).snd = store ++ ext
  | [], _, store => ⟨[], (List.append_nil store).symm⟩
  | a :: rest, faults, store => by
    unfold processWarnings
    dsimp only
    cases hfl : (faults.headD (none, none)).fst with
    | some e => exact ⟨[], (List.append_nil store).symm⟩
    | none =>
      dsimp only
      by_cases hfind : findActive store icaoUp (alertTypeOf a) (contentOf a) = true
      · rw [if_pos hfind]
        obtain ⟨ext, hext⟩ := processWarnings_extends icaoUp rest faults.tail store
        rcases hrec : processWarnings icaoUp rest faults.tail store with ⟨res, st⟩
        rw [hrec] at hext
        cases res with
        | ok p => rcases p with ⟨ins, act⟩; exact ⟨ext, hext⟩
        | error e => exact ⟨ext, hext⟩
      · rw [if_neg hfind]
        cases hsnd : (faults.headD (none, none)).snd with
        | some e => exact ⟨[], (List.append_nil store).symm⟩
        | none =>
          dsimp only
          obtain ⟨ext, hext⟩ := processWarnings_extends icaoUp rest faults.tail
            (store ++ [buildRecord icaoUp a])
          rcases hrec : processWarnings icaoUp rest faults.tail
            (store ++ [buildRecord icaoUp a]) with ⟨res, st⟩
          rw [hrec] at hext
          cases res with
          | ok p =>
            rcases p with ⟨ins, act⟩
            exact ⟨[buildRecord icaoUp a] ++ ext,
              hext.trans (List.append_assoc store [buildRecord icaoUp a] ext)⟩
          | error e =>
            exact ⟨[buildRecord icaoUp a] ++ ext,
              hext.trans (List.append_assoc store [buildRecord icaoUp a] ext)⟩

/-- The reconciler entry point only appends rows to the store. -/
theorem register_extends (icao : String) (res : RedemetResponse)
    (faults : List (Option String × Option String)) (store : List AlertRecord) :
    ∃ ext, (registerAerodromeWarningsForIcao icao res faults store).snd = store ++ ext := by
  unfold registerAerodromeWarningsForIcao
  cases res with
  | withError e => exact ⟨[], (List.append_nil store).symm⟩
  | withData xs =>
    dsimp only
    obtain ⟨ext, hext⟩ := processWarnings_extends (upperString icao)
      ((extractAlerts (JVal.arr xs)).filter isAerodromeWarning) faults store
    rcases hrec : processWarnings (upperString icao)
      ((extractAlerts (JVal.arr xs)).filter isAerodromeWarning) faults store with ⟨r, st⟩
    rw [hrec] at hext
    cases r with
    | ok p => rcases p with ⟨ins, act⟩; exact ⟨ext, hext⟩
    | error e => exact ⟨ext, hext⟩

theorem evolves_refl (r : AlertRecord) : evolves r r := Or.inl rfl

theorem evolves_trans {r r' r'' : AlertRecord}
    (h1 : evolves r r') (h2 : evolves r' r'') : evolves r r'' := by
  rcases h1 with h1 | ⟨ha, h1⟩
  · rwa [h1] at h2
  · rcases h2 with h2 | ⟨ha', h2⟩
    · rw [h2]; exact Or.inr ⟨ha, h1⟩
    · rw [h1] at ha'; simp at ha'

/-- One bulk update of the sweeper keeps the length and only ever turns
an active row into its expired copy. -/
theorem sweepPass_frame (cond : AlertRecord → Bool) (icaos : Option (List String))
    (hcond : ∀ r, cond r = true → r.status = AlertStatus.active)
    (store : List AlertRecord) :
    (sweepPass cond icaos store).length = store.length ∧
    ∀ (i : Nat) (hi : i < store.length) (hi2 : i < (sweepPass cond icaos store).length),
      evolves store[i] (sweepPass cond icaos store)[i] := by
  constructor
  · simp [sweepPass]
  · intro i hi hi2
    have hg : (sweepPass cond icaos store)[i] =
        (if cond store[i] && icaoFilterMatch icaos store[i] then
          { store[i] with status := AlertStatus.expired } else store[i]) := by
      simp [sweepPass]
    rw [hg]
    by_cases hc : (cond store[i] && icaoFilterMatch icaos store[i]) = true
    · rw [if_pos hc]
      have : cond store[i] = true := by
        rcases Bool.and_eq_true_iff.mp hc with ⟨h1, _⟩
        exact h1
      exact Or.inr ⟨hcond _ this, rfl⟩
    · rw [if_neg hc]
      exact evolves_refl _

theorem untilBeforeNow_active (parse : String → Option Int) (now : Int)
    (r : AlertRecord) (h : untilBeforeNow parse now r = true) :
    r.status = AlertStatus.active := by
  have := (Bool.and_eq_true_iff.mp h).1
  exact beq_iff_eq.mp this

theorem fromAfterNow_active (parse : String → Option Int) (now : Int)
    (r : AlertRecord) (h : fromAfterNow parse now r = true) :
    r.status = AlertStatus.active := by
  have := (Bool.and_eq_true_iff.mp h).1
  exact beq_iff_eq.mp this

/-- One core operation (reconcile or sweep) never shortens the store and
only lets existing rows evolve (stay put or expire from active). -/
theorem applyOp_frame (parse : String → Option Int) (store : List AlertRecord)
    (op : CoreOp) :
    store.length ≤ (applyOp parse store op).length ∧
    ∀ (i : Nat) (hi : i < store.length),
      ∃ hi2 : i < (applyOp parse store op).length,
        evolves store[i] (applyOp parse store op)[i] := by
  cases op with
  | reg icao res faults =>
    obtain ⟨ext, hext⟩ := register_extends icao res faults store
    have hlen : (applyOp parse store (.reg icao res faults)).length =
        store.length + ext.length := by
      simp [applyOp, hext]
    constructor
    · omega
    · intro i hi
      have hi2 : i < (applyOp parse store (.reg icao res faults)).length := by omega
      refine ⟨hi2, ?_⟩
      have : (applyOp parse store (.reg icao res faults))[i] = store[i] := by
        simp only [applyOp, hext]
        exact List.getElem_append_left hi
      rw [this]
      exact evolves_refl _
  | sweep icaos now f1 f2 =>
    cases f1 with
    | some e =>
      refine ⟨Nat.le_refl _, fun i hi => ⟨hi, ?_⟩⟩
      exact evolves_refl _
    | none =>
      cases f2 with
      | some e =>
        have h1 := sweepPass_frame (untilBeforeNow parse now) icaos
          (untilBeforeNow_active parse now) store
        refine ⟨Nat.le_of_eq h1.1.symm, fun i hi => ?_⟩
        have hi2 : i < (applyOp parse store (.sweep icaos now none (some e))).length := by
          have := h1.1
          simp only [applyOp, expireOutOfWindowActiveAlerts]
          omega
        exact ⟨hi2, h1.2 i hi (by simpa [applyOp, expireOutOfWindowActiveAlerts] using hi2)⟩
      | none =>
        have h1 := sweepPass_frame (untilBeforeNow parse now) icaos
          (untilBeforeNow_active parse now) store
        have h2 := sweepPass_frame (fromAfterNow parse now) icaos
          (fromAfterNow_active parse now) (sweepPass (untilBeforeNow parse now) icaos store)
        have hlen : (applyOp parse store (.sweep icaos now none none)).length =
            store.length := by
          simp only [applyOp, expireOutOfWindowActiveAlerts]
          rw [h2.1, h1.1]
        refine ⟨Nat.le_of_eq hlen.symm, fun i hi => ?_⟩
        have hi1 : i < (sweepPass (untilBeforeNow parse now) icaos store).length := by
          rw [h1.1]; exact hi
        have hi2 : i < (applyOp parse store (.sweep icaos now none none)).length := by omega
        refine ⟨hi2, ?_⟩
        have e1 := h1.2 i hi hi1
        have e2 := h2.2 i hi1 (by
          simpa [applyOp, expireOutOfWindowActiveAlerts] using hi2)
        exact evolves_trans e1 (by
          simpa [applyOp, expireOutOfWindowActiveAlerts] using e2)

/-- A sequence of core operations never shortens the store and only
lets existing rows evolve. -/
theorem applyOps_frame (parse : String → Option Int) :
    ∀ (ops : List CoreOp) (store : List AlertRecord),
      store.length ≤ (applyOps parse store ops).length ∧
      ∀ (i : Nat) (hi : i < store.length),
        ∃ hi2 : i < (applyOps parse store ops).length,
          evolves store[i] (applyOps parse store ops)[i]
  | [], store => ⟨Nat.le_refl _, fun i hi => ⟨hi, evolves_refl _⟩⟩
  | op :: ops, store => by
    have h1 := applyOp_frame parse store op
    have h2 := applyOps_frame parse ops (applyOp parse store op)
    have hgoal : applyOps parse store (op :: ops) =
        applyOps parse (applyOp parse store op) ops := rfl
    rw [hgoal]
    refine ⟨Nat.le_trans h1.1 h2.1, fun i hi => ?_⟩
    obtain ⟨hi1, e1⟩ := h1.2 i hi
    obtain ⟨hi2, e2⟩ := h2.2 i hi1
    exact ⟨hi2, evolves_trans e1 e2⟩

/-! ### Claim theorems -/

/-- C1. Deduplication invariant: both core operations preserve
"at most one active record per `(icao, alert_type, content)` triple",
and when the reconciler loop processes a classified warning whose triple
already matches an active record it bumps `alreadyActive` and recurses
on an unchanged store — no insert happens for that warning, so two
active records with identical triples never coexist through operations
of this core. -/
theorem dedup_invariant_preserved :
    (∀ (icao : String) (res : RedemetResponse)
        (faults : List (Option String × Option String)) (store : List AlertRecord),
        dedupInvariant store →
        dedupInvariant (registerAerodromeWarningsForIcao icao res faults store).snd) ∧
    (∀ (parse : String → Option Int) (icaos : Option (List String)) (now : Int)
        (f1 f2 : Option String) (store : List AlertRecord),
        dedupInvariant store →
        dedupInvariant (expireOutOfWindowActiveAlerts parse icaos now f1 f2 store).snd) ∧
    (∀ (icaoUp : String) (a : RedemetAlert) (rest : List RedemetAlert)
        (faults : List (Option String × Option String)) (store : List AlertRecord),
        (faults.headD (none, none)).fst = none →
        findActive store icaoUp (alertTypeOf a) (contentOf a) = true →
        processWarnings icaoUp (a :: rest) faults store =
          (match processWarnings icaoUp rest faults.tail store with
           | (Except.ok (ins, act), st) => (Except.ok (ins, act + 1), st)
           | r => r)) := by
  refine ⟨register_dedup, expire_dedup, ?_⟩
  intro icaoUp a rest faults store hfl hfind
  conv_lhs => unfold processWarnings
  dsimp only
  rw [hfl]
  dsimp only
  rw [if_pos hfind]

/-- Witness for C1 at concrete inputs: the empty store satisfies the
invariant and keeps it through a reconcile and a sweep, and the loop
bumps `alreadyActive` on a store already holding the SBMQ row. -/
theorem dedup_invariant_preserved_witness :
    dedupInvariant (registerAerodromeWarningsForIcao "SBMQ"
      (.withData [sbmqAlert]) [] []).snd ∧
    dedupInvariant (expireOutOfWindowActiveAlerts (fun _ => none)
      none 0 none none []).snd ∧
    processWarnings "SBMQ" [sbmqAlert] [] [buildRecord "SBMQ" sbmqAlert] =
      (match processWarnings "SBMQ" ([] : List RedemetAlert) []
          [buildRecord "SBMQ" sbmqAlert] with
       | (Except.ok (ins, act), st) => (Except.ok (ins, act + 1), st)
       | r => r) := by
  refine ⟨dedup_invariant_preserved.1 "SBMQ" (.withData [sbmqAlert]) [] []
      (fun _ _ _ => Nat.zero_le 1),
    dedup_invariant_preserved.2.1 (fun _ => none) none 0 none none []
      (fun _ _ _ => Nat.zero_le 1),
    dedup_invariant_preserved.2.2 "SBMQ" sbmqAlert [] [] [buildRecord "SBMQ" sbmqAlert]
      rfl (by decide)⟩

/-- C5. Monotonic expiry: over any sequence of reconciler and sweeper
calls, an expired row is never touched again (in particular never set
back to active), and any row that is active at a pre-existing position
after the sequence is exactly the row that was already there, already
active, before it — a fresh active record can only be a newly appended
row. -/
theorem monotonic_expiry (parse : String → Option Int) (ops : List CoreOp)
    (store : List AlertRecord) :
    store.length ≤ (applyOps parse store ops).length ∧
    (∀ (i : Nat) (hi : i < store.length) (hi2 : i < (applyOps parse store ops).length),
      store[i].status = AlertStatus.expired →
      (applyOps parse store ops)[i] = store[i]) ∧
    (∀ (i : Nat) (hi : i < store.length) (hi2 : i < (applyOps parse store ops).length),
      ((applyOps parse store ops)[i]).status = AlertStatus.active →
      (applyOps parse store ops)[i] = store[i] ∧
        store[i].status = AlertStatus.active) := by
  refine ⟨(applyOps_frame parse ops store).1, ?_, ?_⟩
  · intro i hi hi2 hexp
    obtain ⟨hi2', ev⟩ := (applyOps_frame parse ops store).2 i hi
    rcases ev with h | ⟨ha, _⟩
    · exact h
    · rw [hexp] at ha
      cases ha
  · intro i hi hi2 hact
    obtain ⟨hi2', ev⟩ := (applyOps_frame parse ops store).2 i hi
    rcases ev with h | ⟨ha, h⟩
    · exact ⟨h, by rw [h] at hact; exact hact⟩
    · rw [h] at hact
      simp at hact

/-- Witness for C5: on the two-row store, the concrete sequence keeps
the expired row untouched at its position. -/
theorem monotonic_expiry_witness :
    twoRowStore.length ≤ (applyOps (fun _ => none) twoRowStore regThenSweep).length ∧
    (applyOps (fun _ => none) twoRowStore regThenSweep).get ⟨0, by decide⟩ =
      twoRowStore.get ⟨0, by decide⟩ := by
  have h := monotonic_expiry (fun _ => none) regThenSweep twoRowStore
  exact ⟨h.1, h.2.1 0 (by decide) (by decide) rfl⟩

theorem fromAfterNow_expired (parse : String → Option Int) (now : Int) (r : AlertRecord) :
    fromAfterNow parse now { r with status := AlertStatus.expired } = false := by
  simp [fromAfterNow]

/-- Pointwise composition of the sweeper's two bulk updates into the one
combined predicate of the specification. -/
theorem sweep_point (parse : String → Option Int) (now : Int)
    (icaos : Option (List String)) (r : AlertRecord) :
    (if fromAfterNow parse now
        (if untilBeforeNow parse now r && icaoFilterMatch icaos r then
          { r with status := AlertStatus.expired } else r) &&
        icaoFilterMatch icaos
        (if untilBeforeNow parse now r && icaoFilterMatch icaos r then
          { r with status := AlertStatus.expired } else r) then
      { (if untilBeforeNow parse now r && icaoFilterMatch icaos r then
          { r with status := AlertStatus.expired } else r) with
        status := AlertStatus.expired }
     else
      (if untilBeforeNow parse now r && icaoFilterMatch icaos r then
        { r with status := AlertStatus.expired } else r)) =
    (if (untilBeforeNow parse now r || fromAfterNow parse now r) &&
        icaoFilterMatch icaos r then
      { r with status := AlertStatus.expired } else r) := by
  by_cases h1 : untilBeforeNow parse now r = true
  · by_cases hf : icaoFilterMatch icaos r = true
    · simp [h1, hf, fromAfterNow_expired]
    · simp [h1, hf]
  · by_cases hf : icaoFilterMatch icaos r = true
    · simp [h1, hf]
    · simp [h1, hf]

/-- The success path of the sweeper, as the single combined map. -/
theorem sweep_two_pass_eq (parse : String → Option Int) (icaos : Option (List String))
    (now : Int) (store : List AlertRecord) :
    (expireOutOfWindowActiveAlerts parse icaos now none none store).snd =
      store.map (fun r =>
        if (untilBeforeNow parse now r || fromAfterNow parse now r) &&
            icaoFilterMatch icaos r then
          { r with status := AlertStatus.expired } else r) := by
  show (sweepPass (fromAfterNow parse now) icaos
      (sweepPass (untilBeforeNow parse now) icaos store)) = _
  unfold sweepPass
  rw [List.map_map]
  apply List.map_congr_left
  intro r _
  exact sweep_point parse now icaos r

/-- Counterexample to C4 as frozen: with `filterIcaos` supplied as the
empty list, the sweep is not restricted to the given ICAOs — the stale
SBMQ row is expired even though "SBMQ" is not among the given ICAOs
(the `params?.icaos?.length` truthiness guard skips the restriction for
an empty array). -/
theorem sweeper_empty_filter_counterexample :
    (expireOutOfWindowActiveAlerts
        (fun s => if s == "2024-01-01T06:00:00Z" then some 0 else none)
        (some []) 1 none none
        [{ icao := "SBMQ", alert_type := "AVISO", content := "x",
           status := .active, severity := .low,
           valid_until := some "2024-01-01T06:00:00Z" }]).snd =
      [{ icao := "SBMQ", alert_type := "AVISO", content := "x",
         status := .expired, severity := .low,
         valid_until := some "2024-01-01T06:00:00Z" }] ∧
    "SBMQ" ∉ ([] : List String) := by
  exact ⟨by decide, List.not_mem_nil _⟩

/-- C4 (amended). Sweeper correctness: on the success path the sweep
sets `status = expired` for exactly those active records whose
`valid_until` is non-null and strictly before now or whose `valid_from`
is non-null and strictly after now, restricted to the given ICAOs when
`filterIcaos` is supplied non-empty (an empty list applies no
restriction); every other record is left untouched, and any record that
is not active — in particular one the sweep already expired — is never
changed by a further sweep at the same or a later instant. -/
theorem sweeper_exact_characterization :
    (∀ (parse : String → Option Int) (icaos : Option (List String)) (now : Int)
        (store : List AlertRecord),
      (expireOutOfWindowActiveAlerts parse icaos now none none store).snd =
        store.map (fun r =>
          if (untilBeforeNow parse now r || fromAfterNow parse now r) &&
              icaoFilterMatch icaos r then
            { r with status := AlertStatus.expired } else r)) ∧
    (∀ (parse : String → Option Int) (icaos : Option (List String)) (now : Int)
        (store : List AlertRecord) (i : Nat) (hi : i < store.length),
      (store.get ⟨i, hi⟩).status ≠ AlertStatus.active →
      ∃ hi2 : i < (expireOutOfWindowActiveAlerts parse icaos now none none store).snd.length,
        (expireOutOfWindowActiveAlerts parse icaos now none none store).snd.get ⟨i, hi2⟩ =
          store.get ⟨i, hi⟩) := by
  refine ⟨sweep_two_pass_eq, ?_⟩
  intro parse icaos now store i hi hna
  rw [sweep_two_pass_eq]
  refine ⟨by simpa using hi, ?_⟩
  have hg : (store.map (fun r =>
      if (untilBeforeNow parse now r || fromAfterNow parse now r) &&
          icaoFilterMatch icaos r then
        { r with status := AlertStatus.expired } else r)).get
      ⟨i, by simpa using hi⟩ =
      (fun r =>
        if (untilBeforeNow parse now r || fromAfterNow parse now r) &&
            icaoFilterMatch icaos r then
          { r with status := AlertStatus.expired } else r) (store.get ⟨i, hi⟩) := by
    simp
  rw [hg]
  have hu : untilBeforeNow parse now store[i] = false := by
    cases hc : untilBeforeNow parse now store[i] with
    | false => rfl
    | true => exact absurd (untilBeforeNow_active parse now _ hc) hna
  have hf : fromAfterNow parse now store[i] = false := by
    cases hc : fromAfterNow parse now store[i] with
    | false => rfl
    | true => exact absurd (fromAfterNow_active parse now _ hc) hna
  simp [hu, hf]

/-- Witness for C4: characterization evaluated on the two-row store at a
concrete instant, and the expired row untouched by a further sweep. -/
theorem sweeper_exact_characterization_witness :
    (expireOutOfWindowActiveAlerts (fun _ => none) none 0 none none twoRowStore).snd =
      twoRowStore.map (fun r =>
        if (untilBeforeNow (fun _ => none) 0 r || fromAfterNow (fun _ => none) 0 r) &&
            icaoFilterMatch none r then
          { r with status := AlertStatus.expired } else r) ∧
    (twoRowStore.get ⟨0, by decide⟩).status ≠ AlertStatus.active ∧
    ∃ hi2 : 0 < (expireOutOfWindowActiveAlerts (fun _ => none) none 0 none none
        twoRowStore).snd.length,
      (expireOutOfWindowActiveAlerts (fun _ => none) none 0 none none
        twoRowStore).snd.get ⟨0, hi2⟩ = twoRowStore.get ⟨0, by decide⟩ := by
  refine ⟨sweeper_exact_characterization.1 (fun _ => none) none 0 twoRowStore,
    by decide, sweeper_exact_characterization.2 (fun _ => none) none 0 twoRowStore 0
      (by decide) (by decide)⟩

/-- With both bounds present and finite, the in-force predicate is the
closed interval test. -/
theorem isAlertInForce_eval (parse : String → Option Int) (s1 s2 : String)
    (t1 t2 now : Int) (h1 : s1 ≠ "") (h2 : s2 ≠ "")
    (hp1 : parse s1 = some t1) (hp2 : parse s2 = some t2) :
    isAlertInForce parse ⟨some s1, some s2⟩ now =
      (decide (t1 ≤ now) && decide (now ≤ t2)) := by
  have e1 : (s1 == "") = false := beq_eq_false_iff_ne.mpr h1
  have e2 : (s2 == "") = false := beq_eq_false_iff_ne.mpr h2
  simp only [isAlertInForce, parseBound, e1, e2, Bool.false_eq_true, if_false, hp1, hp2]
  by_cases hc1 : now < t1
  · have : ¬ t1 ≤ now := by omega
    simp [hc1, this]
  · have hle : t1 ≤ now := by omega
    by_cases hc2 : now > t2
    · have : ¬ now ≤ t2 := by omega
      simp [hc1, hc2, hle, this]
    · have : now ≤ t2 := by omega
      simp [hc1, hc2, hle, this]

/-- With only an upper bound, the in-force predicate is the `now ≤ t2`
test. -/
theorem isAlertInForce_upper (parse : String → Option Int) (s2 : String)
    (t2 now : Int) (h2 : s2 ≠ "") (hp2 : parse s2 = some t2) :
    isAlertInForce parse ⟨none, some s2⟩ now = decide (now ≤ t2) := by
  have e2 : (s2 == "") = false := beq_eq_false_iff_ne.mpr h2
  simp only [isAlertInForce, parseBound, e2, Bool.false_eq_true, if_false, hp2]
  by_cases hc2 : now > t2
  · have : ¬ now ≤ t2 := by omega
    simp [hc2, this]
  · have : now ≤ t2 := by omega
    simp [hc2, this]

/-- With only a lower bound, the in-force predicate is the `t1 ≤ now`
test. -/
theorem isAlertInForce_lower (parse : String → Option Int) (s1 : String)
    (t1 now : Int) (h1 : s1 ≠ "") (hp1 : parse s1 = some t1) :
    isAlertInForce parse ⟨some s1, none⟩ now = decide (t1 ≤ now) := by
  have e1 : (s1 == "") = false := beq_eq_false_iff_ne.mpr h1
  simp only [isAlertInForce, parseBound, e1, Bool.false_eq_true, if_false, hp1]
  by_cases hc1 : now < t1
  · have : ¬ t1 ≤ now := by omega
    simp [hc1, this]
  · have : t1 ≤ now := by omega
    simp [hc1, this]

/-- C6. In-force boundary: for a record with finite bounds T1 < T2 the
predicate is true at exactly T1 and at exactly T2 (boundaries
inclusive) and false at T1 - 1 ms and at T2 + 1 ms; a null bound
imposes no restriction on its side (the predicate degenerates to the
single remaining comparison, and to constantly true with both bounds
null). -/
theorem inforce_boundary :
    (∀ (parse : String → Option Int) (s1 s2 : String) (t1 t2 : Int),
      s1 ≠ "" → s2 ≠ "" → parse s1 = some t1 → parse s2 = some t2 → t1 < t2 →
      isAlertInForce parse ⟨some s1, some s2⟩ t1 = true ∧
      isAlertInForce parse ⟨some s1, some s2⟩ t2 = true ∧
      isAlertInForce parse ⟨some s1, some s2⟩ (t1 - 1) = false ∧
      isAlertInForce parse ⟨some s1, some s2⟩ (t2 + 1) = false) ∧
    (∀ (parse : String → Option Int) (s2 : String) (t2 now : Int),
      s2 ≠ "" → parse s2 = some t2 →
      isAlertInForce parse ⟨none, some s2⟩ now = decide (now ≤ t2)) ∧
    (∀ (parse : String → Option Int) (s1 : String) (t1 now : Int),
      s1 ≠ "" → parse s1 = some t1 →
      isAlertInForce parse ⟨some s1, none⟩ now = decide (t1 ≤ now)) ∧
    (∀ (parse : String → Option Int) (now : Int),
      isAlertInForce parse ⟨none, none⟩ now = true) := by
  refine ⟨?_, isAlertInForce_upper, isAlertInForce_lower, fun parse now => rfl⟩
  intro parse s1 s2 t1 t2 h1 h2 hp1 hp2 hlt
  rw [isAlertInForce_eval parse s1 s2 t1 t2 t1 h1 h2 hp1 hp2,
    isAlertInForce_eval parse s1 s2 t1 t2 t2 h1 h2 hp1 hp2,
    isAlertInForce_eval parse s1 s2 t1 t2 (t1 - 1) h1 h2 hp1 hp2,
    isAlertInForce_eval parse s1 s2 t1 t2 (t2 + 1) h1 h2 hp1 hp2]
  refine ⟨?_, ?_, ?_, ?_⟩ <;> simp <;> omega

/-- Witness for C6 with a concrete parser mapping the two ISO instants
of the scenario to 0 ms and 100 ms. -/
theorem inforce_boundary_witness :
    (isAlertInForce
        (fun s => if s == "2024-01-01T00:00:00Z" then some 0
          else if s == "2024-01-01T06:00:00Z" then some 100 else none)
        ⟨some "2024-01-01T00:00:00Z", some "2024-01-01T06:00:00Z"⟩ 0 = true ∧
      isAlertInForce
        (fun s => if s == "2024-01-01T00:00:00Z" then some 0
          else if s == "2024-01-01T06:00:00Z" then some 100 else none)
        ⟨some "2024-01-01T00:00:00Z", some "2024-01-01T06:00:00Z"⟩ 100 = true ∧
      isAlertInForce
        (fun s => if s == "2024-01-01T00:00:00Z" then some 0
          else if s == "2024-01-01T06:00:00Z" then some 100 else none)
        ⟨some "2024-01-01T00:00:00Z", some "2024-01-01T06:00:00Z"⟩ (0 - 1) = false ∧
      isAlertInForce
        (fun s => if s == "2024-01-01T00:00:00Z" then some 0
          else if s == "2024-01-01T06:00:00Z" then some 100 else none)
        ⟨some "2024-01-01T00:00:00Z", some "2024-01-01T06:00:00Z"⟩ (100 + 1) = false) ∧
    isAlertInForce (fun _ => none) ⟨none, none⟩ 42 = true := by
  refine ⟨inforce_boundary.1 _ "2024-01-01T00:00:00Z" "2024-01-01T06:00:00Z" 0 100
    (by decide) (by decide) (by decide) (by decide) (by decide),
    inforce_boundary.2.2.2 (fun _ => none) 42⟩

/-- C10. Totality of the in-force predicate, with malformed timestamps
unbounded: the predicate always yields a boolean; a bound that is the
empty string or fails to parse to a finite date behaves exactly like a
null bound, and a record carrying only malformed bounds is reported in
force. -/
theorem inforce_totality_malformed :
    (∀ (parse : String → Option Int) (a : ValidityLike) (now : Int),
      isAlertInForce parse a now = true ∨ isAlertInForce parse a now = false) ∧
    (∀ (parse : String → Option Int) (a : ValidityLike) (now : Int) (s : String),
      (s = "" ∨ parse s = none) →
      isAlertInForce parse { a with valid_from := some s } now =
        isAlertInForce parse { a with valid_from := none } now) ∧
    (∀ (parse : String → Option Int) (a : ValidityLike) (now : Int) (s : String),
      (s = "" ∨ parse s = none) →
      isAlertInForce parse { a with valid_until := some s } now =
        isAlertInForce parse { a with valid_until := none } now) ∧
    (∀ (parse : String → Option Int) (now : Int) (s s2 : String),
      (s = "" ∨ parse s = none) → (s2 = "" ∨ parse s2 = none) →
      isAlertInForce parse ⟨some s, some s2⟩ now = true) := by
  have hbnd : ∀ (parse : String → Option Int) (s : String),
      (s = "" ∨ parse s = none) → parseBound parse (some s) = none := by
    intro parse s hs
    rcases hs with hs | hs
    · simp [parseBound, hs]
    · by_cases he : s = ""
      · simp [parseBound, he]
      · have : (s == "") = false := beq_eq_false_iff_ne.mpr he
        simp [parseBound, this, hs]
  refine ⟨fun parse a now => ?_, ?_, ?_, ?_⟩
  · cases h : isAlertInForce parse a now
    · exact Or.inr rfl
    · exact Or.inl rfl
  · intro parse a now s hs
    simp only [isAlertInForce, hbnd parse s hs]
    rfl
  · intro parse a now s hs
    simp only [isAlertInForce, hbnd parse s hs]
    cases hb : parseBound parse a.valid_from <;> rfl
  · intro parse now s s2 hs hs2
    simp only [isAlertInForce, hbnd parse s hs, hbnd parse s2 hs2]

/-- Witness for C10: a record whose bounds are an empty string and an
unparseable string is equivalent to an unbounded one, and in force. -/
theorem inforce_totality_malformed_witness :
    isAlertInForce (fun _ => none)
      ({ valid_from := some "", valid_until := some "garbage" } : ValidityLike) 5 =
      true ∧
    isAlertInForce (fun _ => none)
      ({ valid_from := some "", valid_until := some "nope" } : ValidityLike) 7 =
      isAlertInForce (fun _ => none)
        ({ valid_from := none, valid_until := some "nope" } : ValidityLike) 7 := by
  refine ⟨inforce_totality_malformed.2.2.2 (fun _ => none) 5 "" "garbage"
      (Or.inl rfl) (Or.inr rfl), ?_⟩
  exact inforce_totality_malformed.2.1 (fun _ => none)
    { valid_from := some "", valid_until := some "nope" } 7 "" (Or.inl rfl)

/-- Splitting a format match along an append of formats splits the
candidate list accordingly. -/
theorem matchesFmt_append : ∀ (p q cs : List Char), matchesFmt (p ++ q) cs = true →
    ∃ l1 l2, cs = l1 ++ l2 ∧ l1.length = p.length ∧
      matchesFmt p l1 = true ∧ matchesFmt q l2 = true
  | [], q, cs, h => ⟨[], cs, rfl, rfl, rfl, h⟩
  | f :: p, q, cs, h => by
    cases cs with
    | nil => simp [matchesFmt] at h
    | cons c cs' =>
      rw [List.cons_append] at h
      have h' := h
      unfold matchesFmt at h'
      rw [Bool.and_eq_true] at h'
      obtain ⟨l1, l2, hcat, hlen, hp, hq⟩ := matchesFmt_append p q cs' h'.2
      refine ⟨c :: l1, l2, by rw [hcat, List.cons_append], by simp [hlen], ?_, hq⟩
      unfold matchesFmt
      rw [Bool.and_eq_true]
      exact ⟨h'.1, hp⟩

/-- A character that is not a digit and does not occur in the format
cannot occur in a matching candidate. -/
theorem matchesFmt_not_mem (x : Char) (hx : x.isDigit = false) :
    ∀ (fs cs : List Char), matchesFmt fs cs = true → x ∉ fs → x ∉ cs
  | [], cs, h, _ => by
    cases cs with
    | nil => simp
    | cons c cs' => simp [matchesFmt] at h
  | f :: fs, cs, h, hmem => by
    cases cs with
    | nil => simp
    | cons c cs' =>
      have h' := h
      unfold matchesFmt at h'
      rw [Bool.and_eq_true] at h'
      have htail := matchesFmt_not_mem x hx fs cs' h'.2
        (fun hin => hmem (List.mem_cons_of_mem f hin))
      intro hin
      rcases List.mem_cons.mp hin with he | he
      · subst he
        by_cases hf : (f == 'd') = true
        · rw [if_pos hf] at h'
          rw [h'.1] at hx
          cases hx
        · rw [if_neg hf] at h'
          have : x = f := eq_of_beq h'.1
          exact hmem (this ▸ List.mem_cons_self f fs)
      · exact htail he

/-- Inversion of a format match on a cons format. -/
theorem matchesFmt_cons_inv {f : Char} {fs l : List Char}
    (h : matchesFmt (f :: fs) l = true) :
    ∃ c l', l = c :: l' ∧ (if f == 'd' then c.isDigit else c == f) = true ∧
      matchesFmt fs l' = true := by
  cases l with
  | nil => simp [matchesFmt] at h
  | cons c l' =>
    unfold matchesFmt at h
    rw [Bool.and_eq_true] at h
    exact ⟨c, l', rfl, h.1, h.2⟩

/-- Appending one matching character to a format match. -/
theorem matchesFmt_append_single :
    ∀ (p l : List Char) (f c : Char), matchesFmt p l = true →
      (if f == 'd' then c.isDigit else c == f) = true →
      matchesFmt (p ++ [f]) (l ++ [c]) = true
  | [], [], f, c, _, hc => by
    simp only [List.nil_append]
    unfold matchesFmt
    rw [Bool.and_eq_true]
    exact ⟨hc, rfl⟩
  | [], _ :: _, f, c, h, _ => by simp [matchesFmt] at h
  | _ :: _, [], f, c, h, _ => by simp [matchesFmt] at h
  | x :: p, y :: l, f, c, h, hc => by
    unfold matchesFmt at h
    rw [Bool.and_eq_true] at h
    have := matchesFmt_append_single p l f c h.2 hc
    simp only [List.cons_append]
    unfold matchesFmt
    rw [Bool.and_eq_true]
    exact ⟨h.1, this⟩

/-- A format match survives reversing both lists. -/
theorem matchesFmt_reverse : ∀ (fs cs : List Char), matchesFmt fs cs = true →
    matchesFmt fs.reverse cs.reverse = true
  | [], [], _ => rfl
  | [], _ :: _, h => by simp [matchesFmt] at h
  | f :: fs, cs, h => by
    obtain ⟨c, cs', rfl, hc, htail⟩ := matchesFmt_cons_inv h
    have ih := matchesFmt_reverse fs cs' htail
    rw [List.reverse_cons, List.reverse_cons]
    exact matchesFmt_append_single fs.reverse cs'.reverse f c ih hc

/-- Replacing the first space when the prefix holds none. -/
theorem replaceFirstSpace_append :
    ∀ (l1 l2 : List Char), ' ' ∉ l1 →
      replaceFirstSpace (l1 ++ ' ' :: l2) = l1 ++ 'T' :: l2
  | [], l2, _ => by simp [replaceFirstSpace]
  | c :: l1, l2, h => by
    have hc : c ≠ ' ' := fun he => h (he ▸ List.mem_cons_self c l1)
    have : (c == ' ') = false := beq_eq_false_iff_ne.mpr hc
    simp only [List.cons_append, replaceFirstSpace, this, Bool.false_eq_true, if_false,
      List.cons.injEq, true_and]
    exact replaceFirstSpace_append l1 l2 (fun he => h (List.mem_cons_of_mem c he))

/-- A string matching the naive timestamp shape carries no zone marker:
its last character is a digit and the character six from the end is a
colon. -/
theorem shape_no_zone (s : String) (h : naiveTimestampShape s = true) :
    carriesExplicitZone s = false := by
  unfold naiveTimestampShape at h
  have hrev := matchesFmt_reverse _ _ h
  have hfmt : ("dddd-dd-dd dd:dd:dd".data.reverse) =
      ['d', 'd', ':', 'd', 'd', ':', 'd', 'd', ' ', 'd', 'd', '-', 'd', 'd', '-',
       'd', 'd', 'd', 'd'] := by decide
  rw [hfmt] at hrev
  obtain ⟨c0, l0, he0, hc0, hrev⟩ := matchesFmt_cons_inv hrev
  obtain ⟨c1, l1, he1, hc1, hrev⟩ := matchesFmt_cons_inv hrev
  obtain ⟨c2, l2, he2, hc2, hrev⟩ := matchesFmt_cons_inv hrev
  obtain ⟨c3, l3, he3, hc3, hrev⟩ := matchesFmt_cons_inv hrev
  obtain ⟨c4, l4, he4, hc4, hrev⟩ := matchesFmt_cons_inv hrev
  obtain ⟨c5, l5, he5, hc5, hrev⟩ := matchesFmt_cons_inv hrev
  have hd0 : c0.isDigit = true := by simpa using hc0
  have hq5 : c5 = ':' := by
    have : (c5 == ':') = true := by simpa using hc5
    exact eq_of_beq this
  have hdata : s.data.reverse = c0 :: c1 :: c2 :: c3 :: c4 :: c5 :: l5 := by
    rw [he0, he1, he2, he3, he4, he5]
  unfold carriesExplicitZone endsWithUtcOffset
  rw [hdata]
  have hz : (c0 == 'Z') = false := by
    cases hb : c0 == 'Z' with
    | false => rfl
    | true =>
      have : c0 = 'Z' := eq_of_beq hb
      rw [this] at hd0
      cases hd0
  rw [hq5]
  simp [hz]

/-- C9. Timestamp normalization: a naive "YYYY-MM-DD HH:mm:ss" string
is split at its single space (ten characters in), the space becomes the
"T" separator and the "Z" UTC designator is appended; a string carrying
a trailing zone designator or numeric UTC offset is stored unchanged;
a missing timestamp becomes null. -/
theorem timestamp_normalization :
    (∀ s : String, naiveTimestampShape s = true →
      ∃ l1 l2 : List Char, s.data = l1 ++ ' ' :: l2 ∧ l1.length = 10 ∧ ' ' ∉ l1 ∧
        toIsoZ (some s) = some (String.mk (l1 ++ 'T' :: l2) ++ "Z")) ∧
    (∀ s : String, carriesExplicitZone s = true → toIsoZ (some s) = some s) ∧
    toIsoZ none = none := by
  refine ⟨?_, ?_, rfl⟩
  · intro s h
    have hsplit : ("dddd-dd-dd dd:dd:dd".data) =
        "dddd-dd-dd".data ++ ' ' :: "dd:dd:dd".data := by decide
    have h' := h
    unfold naiveTimestampShape at h'
    rw [hsplit] at h'
    obtain ⟨l1, l2, hcat, hlen, hp, hq⟩ :=
      matchesFmt_append "dddd-dd-dd".data (' ' :: "dd:dd:dd".data) s.data h'
    obtain ⟨c, l2', rfl, hc, _⟩ := matchesFmt_cons_inv hq
    have hcs : c = ' ' := eq_of_beq (by simpa using hc)
    subst hcs
    have hnm : ' ' ∉ l1 :=
      matchesFmt_not_mem ' ' (by decide) "dddd-dd-dd".data l1 hp (by decide)
    refine ⟨l1, l2', hcat, by simpa using hlen, hnm, ?_⟩
    have hne : (s == "") = false := by
      cases hb : s == "" with
      | false => rfl
      | true =>
        have : s = "" := eq_of_beq hb
        rw [this] at hcat
        simp at hcat
    unfold toIsoZ
    dsimp only
    rw [hne]
    simp only [Bool.false_eq_true, if_false, h, if_true]
    rw [hcat, replaceFirstSpace_append l1 l2' hnm]
  · intro s hz
    by_cases hshape : naiveTimestampShape s = true
    · rw [shape_no_zone s hshape] at hz
      cases hz
    · have hne : s ≠ "" := by
        intro he
        rw [he] at hz
        exact absurd hz (by decide)
      have hne' : (s == "") = false := beq_eq_false_iff_ne.mpr hne
      have hsh : naiveTimestampShape s = false := by
        cases hb : naiveTimestampShape s with
        | false => rfl
        | true => exact absurd hb hshape
      unfold toIsoZ
      dsimp only
      rw [hne', hsh]
      simp

/-- Witness for C9 at the scenario's validity timestamps. -/
theorem timestamp_normalization_witness :
    naiveTimestampShape "2024-01-01 06:00:00" = true ∧
    (∃ l1 l2 : List Char, ("2024-01-01 06:00:00" : String).data = l1 ++ ' ' :: l2 ∧
      l1.length = 10 ∧ ' ' ∉ l1 ∧
      toIsoZ (some "2024-01-01 06:00:00") =
        some (String.mk (l1 ++ 'T' :: l2) ++ "Z")) ∧
    carriesExplicitZone "2024-01-01T06:00:00Z" = true ∧
    toIsoZ (some "2024-01-01T06:00:00Z") = some "2024-01-01T06:00:00Z" := by
  refine ⟨by decide, timestamp_normalization.1 "2024-01-01 06:00:00" (by decide),
    by decide, timestamp_normalization.2.1 "2024-01-01T06:00:00Z" (by decide)⟩

/-- C2. Fresh-warning scenario, evaluated on the code: although the
single SBMQ alert is a classified aerodrome warning whose would-be row
is active with severity low, the entry point returns
`{ok: true, inserted: 0, alreadyActive: 0}` with no sample message and
leaves the store empty, because it re-runs the payload-unwrap chain on
the already-extracted alert array and so processes no warning at all. -/
theorem fresh_warning_scenario_code_divergence :
    registerAerodromeWarningsForIcao "SBMQ" (.withData [sbmqAlert]) [] [] =
      (.returns (.success 0 0 none), []) ∧
    isAerodromeWarning sbmqAlert = true ∧
    extractAlerts (JVal.arr [sbmqAlert]) = [] ∧
    processWarnings "SBMQ" [sbmqAlert] [] [] =
      (.ok (1, 0), [buildRecord "SBMQ" sbmqAlert]) ∧
    (buildRecord "SBMQ" sbmqAlert).status = AlertStatus.active ∧
    (buildRecord "SBMQ" sbmqAlert).severity = Severity.low ∧
    (buildRecord "SBMQ" sbmqAlert).content = "AD WRNG SBMQ 010000/010600 TS OBSC" := by
  decide

/-- C3. Idempotence scenario, evaluated on the code: for a source
response with a non-empty classified warning set, both the first and
the second identical call return `inserted = 0` and `alreadyActive = 0`
— the warnings are not counted in `alreadyActive` on the second call,
because neither call ever processes them. -/
theorem reconcile_idempotence_code_divergence :
    ([sbmqAlert].filter isAerodromeWarning).length = 1 ∧
    registerAerodromeWarningsForIcao "SBMQ" (.withData [sbmqAlert]) [] [] =
      (.returns (.success 0 0 none), []) ∧
    registerAerodromeWarningsForIcao "SBMQ" (.withData [sbmqAlert]) []
        (registerAerodromeWarningsForIcao "SBMQ" (.withData [sbmqAlert]) [] []).snd =
      (.returns (.success 0 0 none), []) := by
  decide

/-- Counterexample to C7 as frozen: a store update failure makes
`expireOutOfWindowActiveAlerts` throw the error to the caller — the
outcome is an exception, not a tagged failure return value. -/
theorem sweeper_throws_counterexample :
    (expireOutOfWindowActiveAlerts (fun _ => none) none 0 (some "boom") none []).fst =
      CallOutcome.throws "boom" ∧
    (CallOutcome.throws "boom" : CallOutcome Unit) ≠ CallOutcome.returns () := by
  exact ⟨rfl, by decide⟩

/-- C7 (amended). Error propagation: `registerAerodromeWarningsForIcao`
always returns a tagged result and never throws — a source-fetch error
and a store select or insert error each surface as the tagged failure
branch — while `expireOutOfWindowActiveAlerts` propagates a store
update failure on either bulk statement by throwing it, not by
returning a tagged value. -/
theorem error_propagation_amended :
    (∀ (icao : String) (res : RedemetResponse)
        (faults : List (Option String × Option String)) (store : List AlertRecord),
      ∃ r, (registerAerodromeWarningsForIcao icao res faults store).fst =
        CallOutcome.returns r) ∧
    (∀ (icao e : String) (faults : List (Option String × Option String))
        (store : List AlertRecord),
      registerAerodromeWarningsForIcao icao (.withError e) faults store =
        (CallOutcome.returns (RegisterResult.failure e), store)) ∧
    (∀ (icaoUp : String) (a : RedemetAlert) (rest : List RedemetAlert)
        (faults : List (Option String × Option String)) (store : List AlertRecord)
        (e : String),
      (faults.headD (none, none)).fst = some e →
      processWarnings icaoUp (a :: rest) faults store = (Except.error e, store)) ∧
    (∀ (icaoUp : String) (a : RedemetAlert) (rest : List RedemetAlert)
        (faults : List (Option String × Option String)) (store : List AlertRecord)
        (e : String),
      (faults.headD (none, none)).fst = none →
      (faults.headD (none, none)).snd = some e →
      findActive store icaoUp (alertTypeOf a) (contentOf a) = false →
      processWarnings icaoUp (a :: rest) faults store = (Except.error e, store)) ∧
    (∀ (parse : String → Option Int) (icaos : Option (List String)) (now : Int)
        (store : List AlertRecord) (e : String),
      expireOutOfWindowActiveAlerts parse icaos now (some e) none store =
        (CallOutcome.throws e, store)) ∧
    (∀ (parse : String → Option Int) (icaos : Option (List String)) (now : Int)
        (store : List AlertRecord) (e : String),
      (expireOutOfWindowActiveAlerts parse icaos now none (some e) store).fst =
        CallOutcome.throws e) := by
  refine ⟨?_, fun icao e faults store => rfl, ?_, ?_, fun parse icaos now store e => rfl,
    fun parse icaos now store e => rfl⟩
  · intro icao res faults store
    cases res with
    | withError e => exact ⟨.failure e, rfl⟩
    | withData xs =>
      unfold registerAerodromeWarningsForIcao
      dsimp only
      rcases hrec : processWarnings (upperString icao)
        ((extractAlerts (JVal.arr xs)).filter isAerodromeWarning) faults store with ⟨r, st⟩
      cases r with
      | ok p => rcases p with ⟨ins, act⟩; exact ⟨_, rfl⟩
      | error e => exact ⟨.failure e, rfl⟩
  · intro icaoUp a rest faults store e hfl
    unfold processWarnings
    dsimp only
    rw [hfl]
  · intro icaoUp a rest faults store e hf1 hf2 hfind
    unfold processWarnings
    dsimp only
    rw [hf1]
    dsimp only
    rw [if_neg (by simp [hfind]), hf2]

/-- Witness for C7 at concrete inputs: tagged returns from the
reconciler on fetch and store failures, thrown errors from the
sweeper. -/
theorem error_propagation_amended_witness :
    (∃ r, (registerAerodromeWarningsForIcao "SBMQ" (.withData [sbmqAlert]) [] []).fst =
      CallOutcome.returns r) ∧
    registerAerodromeWarningsForIcao "SBMQ" (.withError "network down") [] [] =
      (CallOutcome.returns (RegisterResult.failure "network down"), []) ∧
    processWarnings "SBMQ" [sbmqAlert] [(some "db read error", none)] [] =
      (Except.error "db read error", []) ∧
    processWarnings "SBMQ" [sbmqAlert] [(none, some "db write error")] [] =
      (Except.error "db write error", []) ∧
    expireOutOfWindowActiveAlerts (fun _ => none) none 0 (some "update failed") none [] =
      (CallOutcome.throws "update failed", []) ∧
    (expireOutOfWindowActiveAlerts (fun _ => none) none 0 none
        (some "second update failed") []).fst =
      CallOutcome.throws "second update failed" := by
  refine ⟨error_propagation_amended.1 "SBMQ" (.withData [sbmqAlert]) [] [],
    error_propagation_amended.2.1 "SBMQ" "network down" [] [],
    error_propagation_amended.2.2.1 "SBMQ" sbmqAlert [] [(some "db read error", none)]
      [] "db read error" rfl,
    error_propagation_amended.2.2.2.1 "SBMQ" sbmqAlert [] [(none, some "db write error")]
      [] "db write error" rfl rfl (by decide),
    error_propagation_amended.2.2.2.2.1 (fun _ => none) none 0 [] "update failed",
    error_propagation_amended.2.2.2.2.2 (fun _ => none) none 0 [] "second update failed"⟩

/-- Counterexample to C8 as frozen: a classified warning whose source
type field is omitted is inserted with `alert_type = "AD WRNG"` (the
`?? "AD WRNG"` default), not "AVISO". -/
theorem alert_type_omitted_counterexample :
    noTipoAlert.tipo = none ∧
    isAerodromeWarning noTipoAlert = true ∧
    (processWarnings "SBMQ" [noTipoAlert] [] []).snd =
      [buildRecord "SBMQ" noTipoAlert] ∧
    (buildRecord "SBMQ" noTipoAlert).alert_type = "AD WRNG" ∧
    (buildRecord "SBMQ" noTipoAlert).alert_type ≠ "AVISO" := by
  decide

/-- C8 (amended). alert_type fallback: a present-but-empty source type
field falls back to "AVISO"; an omitted type field falls back to
"AD WRNG"; a non-empty type is kept as is. -/
theorem alert_type_fallback_amended :
    (∀ (icaoUp : String) (a : RedemetAlert), a.tipo = some "" →
      (buildRecord icaoUp a).alert_type = "AVISO") ∧
    (∀ (icaoUp : String) (a : RedemetAlert), a.tipo = none →
      (buildRecord icaoUp a).alert_type = "AD WRNG") ∧
    (∀ (icaoUp : String) (a : RedemetAlert) (s : String), a.tipo = some s → s ≠ "" →
      (buildRecord icaoUp a).alert_type = s) := by
  refine ⟨?_, ?_, ?_⟩
  · intro icaoUp a h
    rw [buildRecord_alert_type]
    simp [alertTypeOf, h]
  · intro icaoUp a h
    rw [buildRecord_alert_type]
    simp [alertTypeOf, h]
  · intro icaoUp a s h hs
    rw [buildRecord_alert_type]
    simp [alertTypeOf, h, beq_eq_false_iff_ne.mpr hs]

/-- Witness for C8 on the three concrete type-field shapes. -/
theorem alert_type_fallback_amended_witness :
    (buildRecord "SBMQ" { tipo := some "" }).alert_type = "AVISO" ∧
    (buildRecord "SBMQ" noTipoAlert).alert_type = "AD WRNG" ∧
    (buildRecord "SBMQ" sbmqAlert).alert_type = "AVISO" := by
  refine ⟨alert_type_fallback_amended.1 "SBMQ" { tipo := some "" } rfl,
    alert_type_fallback_amended.2.1 "SBMQ" noTipoAlert rfl,
    alert_type_fallback_amended.2.2 "SBMQ" sbmqAlert "AVISO" rfl (by decide)⟩

end Adwrng
